import Mathlib

/-!
Verification of the Large-CSV-Processor pipeline (`app/utils.py`, `app/db.py`,
`app/app.py`, `app/helpers/csv_processor.py`) against its specification.

The embedding is shallow:
* a parsed CSV file is a `List (List String)` (the row list produced by
  `csv.reader`);
* the SQLite staging table `plays` is a `List PlayRecord` in insertion order;
* the filesystem visible to one task is a map `String → Option file-contents`;
* Python exceptions that abort the background run are an explicit `ProcErr`
  value carried in the result of `process_csv`;
* faults of the underlying store (an `insert` or a `SELECT` raising) are
  injected through an explicit `Env`, with `Env.ok` the fault-free run.
-/

namespace LargeCsv

/-- One staged row of the `plays` table (`db.py`: columns `song TEXT`,
`date TEXT`, `plays INTEGER`); also the parsed form of one data row of the
input CSV. -/
structure PlayRecord where
  song : String
  date : String
  plays : Int
deriving DecidableEq, Repr

/-- The grouping key `(song, date)` used by `GROUP BY song, date`. -/
def keyOf (r : PlayRecord) : String × String := (r.song, r.date)

/-- Strip leading and trailing whitespace, as Python `int(str)` does before
reading the literal. -/
def pyStrip (cs : List Char) : List Char :=
  ((cs.dropWhile Char.isWhitespace).reverse.dropWhile Char.isWhitespace).reverse

/-- Value of a nonempty all-digit character list, read in base 10. -/
def digitsToNat (cs : List Char) : Option Nat :=
  if cs ≠ [] ∧ cs.all Char.isDigit then
    some (cs.foldl (fun n c => 10 * n + (c.toNat - 48)) 0)
  else none

/-- Model of Python `int(s)` on a decimal string literal: optional surrounding
whitespace, an optional sign, then a nonempty run of digits; any other string
raises `ValueError`, modelled as `none`. -/
def pyInt (s : String) : Option Int :=
  match pyStrip s.data with
  | '-' :: rest => (digitsToNat rest).map fun n => -(n : Int)
  | '+' :: rest => (digitsToNat rest).map fun n => (n : Int)
  | cs => (digitsToNat cs).map fun n => (n : Int)

/-- Parsing of one data row, `utils.py` line 24
(`song, date, plays = row[0], row[1], int(row[2])`): the first three fields
are read (extra fields are ignored), a row with fewer than three fields
raises `IndexError` and a non-integer third field raises `ValueError`; both
are modelled as `none`. -/
def parseRow (row : List String) : Option PlayRecord :=
  match row with
  | song :: date :: plays :: _ => (pyInt plays).map fun n => ⟨song, date, n⟩
  | _ => none

/-- Ordering of the group keys used by `ORDER BY song, date` with SQLite's
BINARY collation: compare `song` ordinally and break ties on `date`. -/
def keyLe (a b : String × String) : Prop :=
  a.1 < b.1 ∨ (a.1 = b.1 ∧ a.2 ≤ b.2)

/-- Strict version of `keyLe`. -/
def keyLt (a b : String × String) : Prop :=
  a.1 < b.1 ∨ (a.1 = b.1 ∧ a.2 < b.2)

instance : DecidableRel keyLe := fun a b => by
  unfold keyLe; exact inferInstance

instance : DecidableRel keyLt := fun a b => by
  unfold keyLt; exact inferInstance

instance : IsTotal (String × String) keyLe where
  total a b := by
    unfold keyLe
    rcases lt_trichotomy a.1 b.1 with h | h | h
    · exact Or.inl (Or.inl h)
    · rcases le_total a.2 b.2 with h2 | h2
      · exact Or.inl (Or.inr ⟨h, h2⟩)
      · exact Or.inr (Or.inr ⟨h.symm, h2⟩)
    · exact Or.inr (Or.inl h)

instance : IsTrans (String × String) keyLe where
  trans a b c hab hbc := by
    unfold keyLe at *
    rcases hab with h1 | ⟨h1, h1'⟩
    · rcases hbc with h2 | ⟨h2, _⟩
      · exact Or.inl (lt_trans h1 h2)
      · exact Or.inl (h2 ▸ h1)
    · rcases hbc with h2 | ⟨h2, h2'⟩
      · exact Or.inl (h1 ▸ h2)
      · exact Or.inr ⟨h1.trans h2, le_trans h1' h2'⟩

instance : IsAntisymm (String × String) keyLe where
  antisymm a b hab hba := by
    unfold keyLe at *
    rcases hab with h1 | ⟨h1, h1'⟩
    · rcases hba with h2 | ⟨h2, _⟩
      · exact absurd h2 (lt_asymm h1)
      · exact absurd h2.symm (ne_of_lt h1)
    · rcases hba with h2 | ⟨h2, h2'⟩
      · exact absurd h1 (ne_of_gt h2)
      · exact Prod.ext h1 (le_antisymm h1' h2')

/-- Database initialisation (`db.py` `init_db`): `CREATE TABLE IF NOT EXISTS`
leaves any existing rows untouched. -/
def init_db (store : List PlayRecord) : List PlayRecord := store

/-- The staging-store reset (`db.py` `clear_db`): `DELETE FROM plays` removes
every staged row. -/
def clear_db (_store : List PlayRecord) : List PlayRecord := []

/-- Row insertion (`db.py` `insert_record`): appends one row to the `plays`
table. -/
def insert_record (store : List PlayRecord) (r : PlayRecord) : List PlayRecord :=
  store ++ [r]

/-- Value of `SUM(plays)` for one group key over the staged rows. -/
def sumPlays (store : List PlayRecord) (k : String × String) : Int :=
  ((store.filter fun r => decide (keyOf r = k)).map PlayRecord.plays).sum

/-- The distinct group keys produced by `GROUP BY song, date`. -/
def groupKeys (store : List PlayRecord) : List (String × String) :=
  (store.map keyOf).dedup

/-- The full result of
`SELECT song, date, SUM(plays) FROM plays GROUP BY song, date ORDER BY song, date`
before `LIMIT`/`OFFSET` is applied: one row per distinct `(song, date)` key,
carrying the exact sum of `plays` for that key, sorted ascending by song then
date. -/
def fetchSortedAll (store : List PlayRecord) : List (String × String × Int) :=
  (List.insertionSort keyLe (groupKeys store)).map fun k => (k.1, k.2, sumPlays store k)

/-- The `(song, date)` key of one aggregated output triple. -/
def mapKey (t : String × String × Int) : String × String := (t.1, t.2.1)

/-- One page of the query of `db.py` `fetch_sorted_data`: `LIMIT limit OFFSET
offset` skips the first `offset` grouped rows and returns at most `limit` of
the remaining ones. -/
def fetch_sorted_data (store : List PlayRecord) (limit offset : Nat) :
    List (String × String × Int) :=
  ((fetchSortedAll store).drop offset).take limit

/-- The paging loop of `utils.py` `process_csv` viewed as pure data: keep
fetching pages of size `limit` starting at `offset`, advancing the offset by
`limit`, until the first empty page. -/
def fetchPages (store : List PlayRecord) (limit offset : Nat) :
    List (String × String × Int) :=
  if h : fetch_sorted_data store limit offset = [] then []
  else fetch_sorted_data store limit offset ++ fetchPages store limit (offset + limit)
termination_by (fetchSortedAll store).length - offset
decreasing_by
  unfold fetch_sorted_data at h
  simp only [List.take_eq_nil_iff, not_or, List.drop_eq_nil_iff, not_le] at h
  omega

/-- Fault injection for the staging store: `insertFail = some i` makes the
`i`-th `insert_record` call raise (`sqlite3` error while writing),
`fetchFail = some i` makes the `i`-th `fetch_sorted_data` call raise
(`sqlite3` error while reading). All indices are 0-based counts of calls made
by one run of `process_csv`. -/
structure Env where
  insertFail : Option Nat
  fetchFail : Option Nat
deriving DecidableEq, Repr

/-- The fault-free environment: every store operation succeeds. -/
def Env.ok : Env := ⟨none, none⟩

/-- The exceptions that can abort the background run of `process_csv`; they
are caught by its `except` clause and logged. `missingHeader` is the
`StopIteration` of `next(csv_reader)` on a file with no rows; `malformedRow`
is the `IndexError`/`ValueError` of parsing one data row (the spec's
MalformedRowError); `storeWrite` and `storeRead` are the spec's
StoreWriteError and StoreReadError. -/
inductive ProcErr where
  | missingHeader
  | malformedRow (row : List String)
  | storeWrite
  | storeRead
deriving DecidableEq, Repr

/-- The ingestion loop of `utils.py` `process_csv` lines 20-26: for each data
row in order, parse it and insert the record into the staging store; the
first parse failure or injected insert fault aborts the loop. `i` counts the
insert calls already made. -/
def ingestRows (env : Env) : List (List String) → Nat → List PlayRecord →
    Except ProcErr (List PlayRecord)
  | [], _, store => .ok store
  | row :: rest, i, store =>
    match parseRow row with
    | none => .error (.malformedRow row)
    | some r =>
      if env.insertFail = some i then .error .storeWrite
      else ingestRows env rest (i + 1) (insert_record store r)

/-- The exact header row written by `csv_writer.writerow(["Song", "Date",
"Total Number of Plays for Date"])`. -/
def outputHeader : List String :=
  ["Song", "Date", "Total Number of Plays for Date"]

/-- One output CSV row, `csv_writer.writerow([song, date, total_plays])`:
the integer is rendered as its decimal string. -/
def outRow (t : String × String × Int) : List String :=
  [t.1, t.2.1, toString t.2.2]

/-- The output-writing loop of `utils.py` `process_csv` lines 33-41, with
fault injection: starting after `written` rows are already in the output
file, fetch the page at `offset` (the `callIdx`-th fetch call), append its
rows to the file and advance by `limit`, until an empty page (normal
completion, second component `none`) or an injected fetch fault (the rows
already written stay in the file, second component the error). -/
def writePages (env : Env) (store : List PlayRecord) (limit offset callIdx : Nat)
    (written : List (List String)) : List (List String) × Option ProcErr :=
  if env.fetchFail = some callIdx then (written, some .storeRead)
  else if h : fetch_sorted_data store limit offset = [] then (written, none)
  else
    writePages env store limit (offset + limit) (callIdx + 1)
      (written ++ (fetch_sorted_data store limit offset).map outRow)
termination_by (fetchSortedAll store).length - offset
decreasing_by
  unfold fetch_sorted_data at h
  simp only [List.take_eq_nil_iff, not_or, List.drop_eq_nil_iff, not_le] at h
  omega

/-- Outcome of one background run: the contents of the output artifact if the
file was created (`none` when `open(output_file_path, 'w')` was never
reached), and the exception that aborted the run, if any (`none` on normal
completion). -/
structure ProcResult where
  output : Option (List (List String))
  err : Option ProcErr
deriving DecidableEq, Repr

/-- The background phase, `utils.py` `process_csv`: initialise and clear the
staging store, read the input file (the first row is consumed as the header;
a file with no rows raises `StopIteration`), ingest every data row, then
create the output file, write the header row and page through
`fetch_sorted_data` with pages of 500 until an empty page. Any exception is
caught and only logged; the run's `err` records it. -/
def process_csv (env : Env) (store₀ : List PlayRecord)
    (input : List (List String)) : ProcResult :=
  match input with
  | [] => ⟨none, some .missingHeader⟩
  | _header :: dataRows =>
    match ingestRows env dataRows 0 (clear_db (init_db store₀)) with
    | .error e => ⟨none, some e⟩
    | .ok store =>
      match writePages env store 500 0 0 [] with
      | (written, some e) => ⟨some (outputHeader :: written), some e⟩
      | (written, none) => ⟨some (outputHeader :: written), none⟩

/-- Input artifact name, `utils.py` line 54: `f"{task_id}_input.csv"`. -/
def input_artifact_name (tid : String) : String := tid ++ "_input.csv"

/-- Output artifact name, `utils.py` line 55: `f"{task_id}_output.csv"`. -/
def output_artifact_name (tid : String) : String := tid ++ "_output.csv"

/-- The filesystem visible through the upload folder: file name to contents
(an output or input CSV, as its row list). -/
def Fs := String → Option (List (List String))

/-- The result-store lookup, `utils.py` `get_result`: the output artifact's
contents if `{task_id}_output.csv` exists, otherwise `none`. -/
def get_result (fs : Fs) (tid : String) : Option (List (List String)) :=
  fs (output_artifact_name tid)

/-- The three caller-visible poll outcomes of `GET /result/<task_id>`
(`app.py` `get_file_result`): `send_file` of the completed artifact, a 202
"Processing..." response, or a 404 "Not found" response. -/
inductive PollResult where
  | Complete (content : List (List String))
  | Processing
  | NotFound
deriving DecidableEq, Repr

/-- The poll endpoint, `app.py` `get_file_result`: if `get_result` finds the
output artifact its contents are served; otherwise the task is reported as
processing when the input artifact exists and the output artifact does not,
and as not found in every remaining case. -/
def pollStatus (fs : Fs) (tid : String) : PollResult :=
  match get_result fs tid with
  | some content => .Complete content
  | none =>
    if (fs (input_artifact_name tid)).isSome ∧ (fs (output_artifact_name tid)).isNone
    then .Processing
    else .NotFound

/-- The per-task filesystem once the uploaded file has been saved and the
background run has finished: the input artifact holds the uploaded rows, the
output artifact holds whatever the run produced, no other file of this task
exists. -/
def runTask (env : Env) (store₀ : List PlayRecord) (tid : String)
    (contents : List (List String)) : Fs := fun name =>
  if name = input_artifact_name tid then some contents
  else if name = output_artifact_name tid then (process_csv env store₀ contents).output
  else none

/-- The task allocated by `utils.py` `handle_file_upload` for a fresh
`task_id`: the artifact paths it derives from the id. -/
structure SubmittedTask where
  task_id : String
  inputName : String
  outputName : String
deriving DecidableEq, Repr

/-- Path construction of `utils.py` `handle_file_upload` lines 54-55. -/
def handle_file_upload (tid : String) : SubmittedTask :=
  ⟨tid, input_artifact_name tid, output_artifact_name tid⟩

/-- Responses of the upload route: a 400 error body or a 202 with the
task id. -/
inductive UploadResponse where
  | badRequest (msg : String)
  | accepted (task_id : String)
deriving DecidableEq, Repr

/-- The synchronous upload path, `app.py` `upload_file`: a request with no
file part or with an empty filename is rejected with 400 before any task is
created; otherwise a task is created and the uploaded rows are written to the
input artifact. Returns the HTTP response, the created task (if any) and the
filesystem effect of the synchronous path. -/
def upload_file (filePart : Option (String × List (List String)))
    (tid : String) : UploadResponse × Option SubmittedTask × Fs :=
  match filePart with
  | none => (.badRequest "No file part in the request", none, fun _ => none)
  | some (fname, contents) =>
    if fname = "" then (.badRequest "No selected file", none, fun _ => none)
    else
      (.accepted tid, some (handle_file_upload tid),
        fun name => if name = input_artifact_name tid then some contents else none)

/-- Whether `csv.writer` must quote a field (default QUOTE_MINIMAL dialect):
the field contains the delimiter, a quote or a line break. -/
def needsQuoting (s : String) : Bool :=
  s.data.any fun c => c = ',' ∨ c = '"' ∨ c = '\n' ∨ c = '\r'

/-- Serialisation of one field by `csv.writer`: quoted with inner quotes
doubled when needed, verbatim otherwise. -/
def csvField (s : String) : String :=
  if needsQuoting s then
    "\"" ++ (s.data.foldr (fun c acc => if c = '"' then '"' :: '"' :: acc else c :: acc) []).asString ++ "\""
  else s

/-- Serialisation of one CSV row by `csv.writer`: fields joined by commas. -/
def serializeRow (fields : List String) : String :=
  String.intercalate "," (fields.map csvField)

/-! The in-memory implementation of `helpers/csv_processor.py`: a nested
`defaultdict(lambda: defaultdict(int))` mapping song → date → accumulated
plays, modelled as insertion-ordered association lists. -/

/-- One `song_data[song][date] += plays` step on the inner `date → plays`
dict: an existing date entry is increased in place, a missing one is
appended with the defaultdict's initial value 0 plus `p`. -/
def updateInner : List (String × Int) → String → Int → List (String × Int)
  | [], d, p => [(d, p)]
  | (d', v) :: rest, d, p =>
    if d' = d then (d', v + p) :: rest else (d', v) :: updateInner rest d p

/-- One `song_data[song][date] += plays` step on the outer dict: the inner
dict of an existing song entry is updated in place, a missing song entry is
appended with a fresh inner dict. -/
def updateOuter : List (String × List (String × Int)) → String → String → Int →
    List (String × List (String × Int))
  | [], s, d, p => [(s, updateInner [] d p)]
  | (s', inner) :: rest, s, d, p =>
    if s' = s then (s', updateInner inner d p) :: rest
    else (s', inner) :: updateOuter rest s d p

/-- The dict built by the ingestion loop of `csv_processor.py` over already
parsed records. -/
def buildDict (rows : List PlayRecord) : List (String × List (String × Int)) :=
  rows.foldl (fun d r => updateOuter d r.song r.date r.plays) []

/-- The generator expression `((song, date, plays) for song, dates in
song_data.items() for date, plays in dates.items())` flattening the nested
dict into triples. -/
def flattenDict : List (String × List (String × Int)) → List (String × String × Int)
  | [] => []
  | (s, inner) :: rest => (inner.map fun dv => (s, dv.1, dv.2)) ++ flattenDict rest

/-- Lookup in the inner dict. -/
def innerLookup : List (String × Int) → String → Option Int
  | [], _ => none
  | (d', v) :: rest, d => if d' = d then some v else innerLookup rest d

/-- Lookup in the nested dict. -/
def dictLookup : List (String × List (String × Int)) → String → String → Option Int
  | [], _, _ => none
  | (s', inner) :: rest, s, d =>
    if s' = s then innerLookup inner d else dictLookup rest s d

/-- The comparison used by `sorted(..., key=lambda x: (x[0], x[1]))` in
`csv_processor.py`: triples compare by their `(song, date)` key. -/
def tripleLe (a b : String × String × Int) : Prop :=
  keyLe (a.1, a.2.1) (b.1, b.2.1)

instance : DecidableRel tripleLe := fun a b => by
  unfold tripleLe; exact inferInstance

instance : IsTotal (String × String × Int) tripleLe where
  total a b := IsTotal.total (r := keyLe) (a.1, a.2.1) (b.1, b.2.1)

instance : IsTrans (String × String × Int) tripleLe where
  trans _ _ _ hab hbc := Trans.trans (r := keyLe) (s := keyLe) hab hbc

/-- The per-row loop of `csv_processor.py` `process_csv`: parse each data row
(same `row[0], row[1], int(row[2])` access as `utils.py`) and fold it into
the nested dict; a parse failure raises and aborts the run. -/
def helperIngest : List (List String) →
    List (String × List (String × Int)) →
    Except ProcErr (List (String × List (String × Int)))
  | [], d => .ok d
  | row :: rest, d =>
    match parseRow row with
    | none => .error (.malformedRow row)
    | some r => helperIngest rest (updateOuter d r.song r.date r.plays)

/-- The in-memory implementation, `helpers/csv_processor.py` `process_csv`:
skip the header (raising on an empty file), accumulate every data row into
the nested dict, sort the flattened triples by `(song, date)` and write the
same header row followed by the sorted triples. -/
def helper_process_csv (input : List (List String)) : ProcResult :=
  match input with
  | [] => ⟨none, some .missingHeader⟩
  | _header :: dataRows =>
    match helperIngest dataRows [] with
    | .error e => ⟨none, some e⟩
    | .ok d =>
      ⟨some (outputHeader ::
        (List.insertionSort tripleLe (flattenDict d)).map outRow), none⟩

/-! Lemmas about the aggregation query. -/

lemma keyLe_of_ne_of_le {a b : String × String} (h : keyLe a b) (hne : a ≠ b) :
    keyLt a b := by
  unfold keyLe at h
  unfold keyLt
  rcases h with h | ⟨h1, h2⟩
  · exact Or.inl h
  · refine Or.inr ⟨h1, lt_of_le_of_ne h2 ?_⟩
    intro h3
    exact hne (Prod.ext h1 h3)

lemma sumPlays_nil (k : String × String) : sumPlays [] k = 0 := rfl

lemma sumPlays_cons (r : PlayRecord) (rest : List PlayRecord) (k : String × String) :
    sumPlays (r :: rest) k = (if keyOf r = k then r.plays else 0) + sumPlays rest k := by
  unfold sumPlays
  rw [List.filter_cons]
  by_cases h : keyOf r = k
  · simp [h]
  · simp [h]

lemma sum_map_add_int {β : Type} (l : List β) (f g : β → Int) :
    (l.map fun x => f x + g x).sum = (l.map f).sum + (l.map g).sum := by
  induction l with
  | nil => simp
  | cons a l ih => simp [ih]; omega

lemma sum_map_single_zero {K : Type} [DecidableEq K] (ks : List K) (k : K) (v : Int)
    (hk : k ∉ ks) : (ks.map fun x => if k = x then v else 0).sum = 0 := by
  induction ks with
  | nil => simp
  | cons a ks ih =>
    simp only [List.mem_cons, not_or] at hk
    simp [if_neg hk.1, ih hk.2]

lemma sum_map_single {K : Type} [DecidableEq K] (ks : List K) (k : K) (v : Int)
    (hnd : ks.Nodup) (hk : k ∈ ks) :
    (ks.map fun x => if k = x then v else 0).sum = v := by
  induction ks with
  | nil => cases hk
  | cons a ks ih =>
    rcases List.mem_cons.mp hk with h | h
    · subst h
      have hnot : k ∉ ks := (List.nodup_cons.mp hnd).1
      simp [sum_map_single_zero ks k v hnot]
    · have hne : k ≠ a := by
        intro he
        subst he
        exact (List.nodup_cons.mp hnd).1 h
      simp [if_neg hne, ih (List.nodup_cons.mp hnd).2 h]

lemma sum_sumPlays (rows : List PlayRecord) (ks : List (String × String))
    (hnd : ks.Nodup) (hcov : ∀ r ∈ rows, keyOf r ∈ ks) :
    (ks.map fun k => sumPlays rows k).sum = (rows.map PlayRecord.plays).sum := by
  induction rows with
  | nil =>
    simp only [sumPlays_nil, List.map_nil, List.sum_nil]
    induction ks with
    | nil => simp
    | cons a ks ih => simp [ih]
  | cons r rest ih =>
    have hcov' : ∀ x ∈ rest, keyOf x ∈ ks := fun x hx => hcov x (List.mem_cons_of_mem r hx)
    have h1 : (ks.map fun k => sumPlays (r :: rest) k).sum =
        (ks.map fun k => if keyOf r = k then r.plays else 0).sum +
        (ks.map fun k => sumPlays rest k).sum := by
      rw [← sum_map_add_int]
      congr 1
      exact List.map_congr_left fun k _ => sumPlays_cons r rest k
    rw [h1, sum_map_single ks (keyOf r) r.plays hnd (hcov r (List.mem_cons_self r rest)),
      ih hcov']
    simp

lemma fetchSortedAll_map_key (store : List PlayRecord) :
    (fetchSortedAll store).map mapKey = List.insertionSort keyLe (groupKeys store) := by
  unfold fetchSortedAll
  rw [List.map_map]
  have h : (mapKey ∘ fun k : String × String => (k.1, k.2, sumPlays store k)) = id := rfl
  rw [h, List.map_id]

lemma fetchSortedAll_keys_nodup (store : List PlayRecord) :
    ((fetchSortedAll store).map mapKey).Nodup := by
  rw [fetchSortedAll_map_key]
  exact ((List.perm_insertionSort keyLe (groupKeys store)).symm.nodup
    (List.nodup_dedup _))

lemma fetchSortedAll_mem_keys (store : List PlayRecord) (k : String × String) :
    k ∈ (fetchSortedAll store).map mapKey ↔ k ∈ store.map keyOf := by
  rw [fetchSortedAll_map_key]
  rw [(List.perm_insertionSort keyLe (groupKeys store)).mem_iff]
  exact List.mem_dedup

lemma fetchSortedAll_values (store : List PlayRecord) (t : String × String × Int)
    (ht : t ∈ fetchSortedAll store) : t = (t.1, t.2.1, sumPlays store (t.1, t.2.1)) := by
  unfold fetchSortedAll at ht
  rcases List.mem_map.mp ht with ⟨k, _, hk⟩
  rw [← hk]

lemma fetchSortedAll_sorted (store : List PlayRecord) :
    List.Pairwise keyLt ((fetchSortedAll store).map mapKey) := by
  have hs : List.Pairwise keyLe ((fetchSortedAll store).map mapKey) := by
    rw [fetchSortedAll_map_key]
    exact List.sorted_insertionSort keyLe (groupKeys store)
  have hn : List.Pairwise Ne ((fetchSortedAll store).map mapKey) :=
    fetchSortedAll_keys_nodup store
  exact (hs.and hn).imp fun h => keyLe_of_ne_of_le h.1 h.2

lemma fetchSortedAll_sum (store : List PlayRecord) :
    ((fetchSortedAll store).map fun t => t.2.2).sum = (store.map PlayRecord.plays).sum := by
  unfold fetchSortedAll
  rw [List.map_map]
  have h1 : ((List.insertionSort keyLe (groupKeys store)).map
      ((fun t : String × String × Int => t.2.2) ∘ fun k => (k.1, k.2, sumPlays store k))) =
      ((List.insertionSort keyLe (groupKeys store)).map fun k => sumPlays store k) := rfl
  rw [h1]
  rw [((List.perm_insertionSort keyLe (groupKeys store)).map
    fun k => sumPlays store k).sum_eq]
  exact sum_sumPlays store (groupKeys store) (List.nodup_dedup _)
    fun r hr => List.mem_dedup.mpr (List.mem_map_of_mem keyOf hr)

lemma fetchSortedAll_nil : fetchSortedAll [] = [] := rfl

/-! Lemmas about the background run. -/

lemma ingestRows_ok (env : Env) (hins : env.insertFail = none) :
    ∀ (rs : List (List String)) (i : Nat) (store : List PlayRecord),
      (∀ row ∈ rs, (parseRow row).isSome) →
      ingestRows env rs i store = .ok (store ++ rs.filterMap parseRow) := by
  intro rs
  induction rs with
  | nil => intro i store _; simp [ingestRows]
  | cons row rest ih =>
    intro i store hw
    have h0 : (parseRow row).isSome := hw row (List.mem_cons_self row rest)
    rcases Option.isSome_iff_exists.mp h0 with ⟨r, hr⟩
    simp only [ingestRows, hr, hins]
    rw [if_neg (by simp)]
    rw [ih (i + 1) (insert_record store r)
      (fun x hx => hw x (List.mem_cons_of_mem _ hx))]
    simp [insert_record, List.filterMap_cons, hr]

lemma ingestRows_first_bad (env : Env) (hins : env.insertFail = none) :
    ∀ (rs : List (List String)) (i : Nat) (store : List PlayRecord),
      (∃ row ∈ rs, parseRow row = none) →
      ∃ row ∈ rs, parseRow row = none ∧
        ingestRows env rs i store = .error (.malformedRow row) := by
  intro rs
  induction rs with
  | nil =>
    rintro i store ⟨row, h, _⟩
    cases h
  | cons row rest ih =>
    intro i store hbad
    cases hp : parseRow row with
    | none =>
      exact ⟨row, List.mem_cons_self row rest, hp, by simp [ingestRows, hp]⟩
    | some r =>
      have hbad' : ∃ x ∈ rest, parseRow x = none := by
        rcases hbad with ⟨x, hx, hxn⟩
        rcases List.mem_cons.mp hx with he | hm
        · subst he; rw [hp] at hxn; cases hxn
        · exact ⟨x, hm, hxn⟩
      rcases ih (i + 1) (insert_record store r) hbad' with ⟨x, hx, hxn, heq⟩
      refine ⟨x, List.mem_cons_of_mem _ hx, hxn, ?_⟩
      simp only [ingestRows, hp, hins]
      rw [if_neg (by simp)]
      exact heq

lemma ingestRows_err_ne_storeRead (env : Env) :
    ∀ (rs : List (List String)) (i : Nat) (store : List PlayRecord) (e : ProcErr),
      ingestRows env rs i store = .error e → e ≠ .storeRead := by
  intro rs
  induction rs with
  | nil => intro i store e h; simp [ingestRows] at h
  | cons row rest ih =>
    intro i store e h
    cases hp : parseRow row with
    | none =>
      simp only [ingestRows, hp] at h
      cases h
      simp
    | some r =>
      simp only [ingestRows, hp] at h
      by_cases hi : env.insertFail = some i
      · rw [if_pos hi] at h
        cases h
        simp
      · rw [if_neg hi] at h
        exact ih (i + 1) (insert_record store r) e h

lemma writePages_ok (env : Env) (store : List PlayRecord) (limit : Nat)
    (hf : env.fetchFail = none) (hl : 0 < limit) (offset callIdx : Nat)
    (written : List (List String)) :
    writePages env store limit offset callIdx written =
      (written ++ ((fetchSortedAll store).drop offset).map outRow, none) := by
  rw [writePages.eq_def]
  rw [if_neg (by simp [hf])]
  by_cases h : fetch_sorted_data store limit offset = []
  · rw [dif_pos h]
    have hd : (fetchSortedAll store).drop offset = [] := by
      unfold fetch_sorted_data at h
      rcases List.take_eq_nil_iff.mp h with h1 | h1
      · omega
      · exact h1
    rw [hd]
    simp
  · rw [dif_neg h]
    rw [writePages_ok env store limit hf hl (offset + limit) (callIdx + 1) _]
    rw [List.append_assoc, ← List.map_append]
    have h2 : fetch_sorted_data store limit offset ++
        (fetchSortedAll store).drop (offset + limit) =
        (fetchSortedAll store).drop offset := by
      unfold fetch_sorted_data
      rw [← List.drop_drop]
      exact List.take_append_drop limit _
    rw [h2]
termination_by (fetchSortedAll store).length - offset
decreasing_by
  unfold fetch_sorted_data at h
  simp only [List.take_eq_nil_iff, not_or, List.drop_eq_nil_iff, not_le] at h
  omega

lemma writePages_err (env : Env) (store : List PlayRecord) (limit : Nat)
    (offset callIdx : Nat) (written : List (List String)) :
    ∀ (w : List (List String)) (e : ProcErr),
      writePages env store limit offset callIdx written = (w, some e) →
      e = .storeRead := by
  intro w e heq
  rw [writePages.eq_def] at heq
  by_cases h1 : env.fetchFail = some callIdx
  · rw [if_pos h1] at heq
    cases heq
    rfl
  · rw [if_neg h1] at heq
    by_cases h : fetch_sorted_data store limit offset = []
    · rw [dif_pos h] at heq
      cases heq
    · rw [dif_neg h] at heq
      exact writePages_err env store limit (offset + limit) (callIdx + 1) _ w e heq
termination_by (fetchSortedAll store).length - offset
decreasing_by
  unfold fetch_sorted_data at h
  simp only [List.take_eq_nil_iff, not_or, List.drop_eq_nil_iff, not_le] at h
  omega

lemma process_csv_ok (store₀ : List PlayRecord) (header : List String)
    (dataRows : List (List String))
    (hw : ∀ row ∈ dataRows, (parseRow row).isSome) :
    process_csv Env.ok store₀ (header :: dataRows) =
      ⟨some (outputHeader ::
        (fetchSortedAll (dataRows.filterMap parseRow)).map outRow), none⟩ := by
  have hstep : process_csv Env.ok store₀ (header :: dataRows) =
      match ingestRows Env.ok dataRows 0 (clear_db (init_db store₀)) with
      | .error e => ⟨none, some e⟩
      | .ok store =>
        match writePages Env.ok store 500 0 0 [] with
        | (written, some e) => ⟨some (outputHeader :: written), some e⟩
        | (written, none) => ⟨some (outputHeader :: written), none⟩ := rfl
  rw [hstep, ingestRows_ok Env.ok rfl dataRows 0 (clear_db (init_db store₀)) hw]
  simp only [clear_db, init_db, List.nil_append]
  rw [writePages_ok Env.ok (dataRows.filterMap parseRow) 500 rfl (by omega) 0 0 []]
  simp

lemma fetchPages_eq (store : List PlayRecord) (limit : Nat) (hl : 0 < limit)
    (offset : Nat) :
    fetchPages store limit offset = (fetchSortedAll store).drop offset := by
  rw [fetchPages.eq_def]
  by_cases h : fetch_sorted_data store limit offset = []
  · rw [dif_pos h]
    unfold fetch_sorted_data at h
    rcases List.take_eq_nil_iff.mp h with h1 | h1
    · omega
    · exact h1.symm
  · rw [dif_neg h]
    rw [fetchPages_eq store limit hl (offset + limit)]
    unfold fetch_sorted_data
    rw [← List.drop_drop]
    exact List.take_append_drop limit _
termination_by (fetchSortedAll store).length - offset
decreasing_by
  unfold fetch_sorted_data at h
  simp only [List.take_eq_nil_iff, not_or, List.drop_eq_nil_iff, not_le] at h
  omega

/-! Lemmas about artifact names and the poll endpoint. -/

lemma input_ne_output (tid : String) :
    input_artifact_name tid ≠ output_artifact_name tid := by
  intro h
  have hd : (input_artifact_name tid).data = (output_artifact_name tid).data := by
    rw [h]
  unfold input_artifact_name output_artifact_name at hd
  rw [String.data_append, String.data_append] at hd
  have hlen := congrArg List.length hd
  rw [List.length_append, List.length_append] at hlen
  have h1 : ("_input.csv" : String).data.length = 10 := rfl
  have h2 : ("_output.csv" : String).data.length = 11 := rfl
  rw [h1, h2] at hlen
  omega

lemma runTask_input (env : Env) (store₀ : List PlayRecord) (tid : String)
    (contents : List (List String)) :
    runTask env store₀ tid contents (input_artifact_name tid) = some contents := by
  unfold runTask
  rw [if_pos rfl]

lemma runTask_output (env : Env) (store₀ : List PlayRecord) (tid : String)
    (contents : List (List String)) :
    runTask env store₀ tid contents (output_artifact_name tid) =
      (process_csv env store₀ contents).output := by
  unfold runTask
  rw [if_neg (Ne.symm (input_ne_output tid)), if_pos rfl]

lemma runTask_other (env : Env) (store₀ : List PlayRecord) (tid : String)
    (contents : List (List String)) (name : String)
    (h1 : name ≠ input_artifact_name tid) (h2 : name ≠ output_artifact_name tid) :
    runTask env store₀ tid contents name = none := by
  unfold runTask
  rw [if_neg h1, if_neg h2]

lemma pollStatus_runTask (env : Env) (store₀ : List PlayRecord) (tid : String)
    (contents : List (List String)) :
    pollStatus (runTask env store₀ tid contents) tid =
      match (process_csv env store₀ contents).output with
      | some c => .Complete c
      | none => .Processing := by
  unfold pollStatus get_result
  rw [runTask_output, runTask_input]
  cases h : (process_csv env store₀ contents).output with
  | some c => rfl
  | none => rfl

/-! Lemmas about the in-memory nested dict of `csv_processor.py`. -/

lemma innerLookup_updateInner (inner : List (String × Int)) (d : String) (p : Int)
    (x : String) :
    innerLookup (updateInner inner d p) x =
      if d = x then some ((innerLookup inner x).getD 0 + p)
      else innerLookup inner x := by
  induction inner with
  | nil =>
    by_cases h : d = x
    · subst h; simp [updateInner, innerLookup]
    · simp [updateInner, innerLookup, h, fun he : x = d => h he.symm]
  | cons dv rest ih =>
    obtain ⟨d', v⟩ := dv
    by_cases h1 : d' = d
    · subst h1
      by_cases h2 : d' = x
      · subst h2
        simp [updateInner, innerLookup]
      · simp [updateInner, innerLookup, h2, fun he : d' = x => h2 he]
    · by_cases h2 : d' = x
      · subst h2
        have hdx : ¬ d = d' := fun he => h1 he.symm
        simp [updateInner, innerLookup, h1, hdx]
      · simp [updateInner, innerLookup, h1, h2, ih]

lemma innerKeys_updateInner (inner : List (String × Int)) (d : String) (p : Int) :
    (updateInner inner d p).map Prod.fst =
      if d ∈ inner.map Prod.fst then inner.map Prod.fst
      else inner.map Prod.fst ++ [d] := by
  induction inner with
  | nil => simp [updateInner]
  | cons dv rest ih =>
    obtain ⟨d', v⟩ := dv
    by_cases h1 : d' = d
    · subst h1
      simp [updateInner]
    · have h2 : ¬ d = d' := fun he => h1 he.symm
      by_cases hm : d ∈ rest.map Prod.fst
      · simp [updateInner, h1, ih, hm, h2]
      · simp [updateInner, h1, ih, hm, h2]

lemma nodup_updateInner (inner : List (String × Int)) (d : String) (p : Int)
    (h : (inner.map Prod.fst).Nodup) :
    ((updateInner inner d p).map Prod.fst).Nodup := by
  rw [innerKeys_updateInner]
  by_cases hm : d ∈ inner.map Prod.fst
  · rwa [if_pos hm]
  · rw [if_neg hm]
    refine List.Nodup.append h (List.nodup_singleton d) ?_
    intro x hx hx'
    rw [List.mem_singleton] at hx'
    subst hx'
    exact hm hx

lemma innerLookup_mem_iff (inner : List (String × Int))
    (h : (inner.map Prod.fst).Nodup) (d : String) (v : Int) :
    (d, v) ∈ inner ↔ innerLookup inner d = some v := by
  induction inner with
  | nil => simp [innerLookup]
  | cons dv rest ih =>
    obtain ⟨d', v'⟩ := dv
    rw [List.map_cons, List.nodup_cons] at h
    by_cases h1 : d' = d
    · subst h1
      simp only [innerLookup, if_pos rfl, List.mem_cons]
      constructor
      · rintro (he | hm)
        · cases he; rfl
        · exact absurd (List.mem_map_of_mem Prod.fst hm) h.1
      · intro he
        cases he
        exact Or.inl rfl
    · simp only [innerLookup, if_neg h1, List.mem_cons]
      rw [← ih h.2]
      constructor
      · rintro (he | hm)
        · cases he; exact absurd rfl h1
        · exact hm
      · exact Or.inr

lemma dictLookup_updateOuter (outer : List (String × List (String × Int)))
    (s d : String) (p : Int) (x y : String) :
    dictLookup (updateOuter outer s d p) x y =
      if s = x ∧ d = y then some ((dictLookup outer x y).getD 0 + p)
      else dictLookup outer x y := by
  induction outer with
  | nil =>
    by_cases h1 : s = x
    · subst h1
      by_cases h2 : d = y
      · subst h2
        simp [updateOuter, dictLookup, updateInner, innerLookup]
      · simp [updateOuter, dictLookup, updateInner, innerLookup, h2,
          fun he : y = d => h2 he.symm]
    · simp [updateOuter, dictLookup, updateInner, innerLookup, h1,
        fun he : x = s => h1 he.symm]
  | cons si rest ih =>
    obtain ⟨s', inner⟩ := si
    by_cases h1 : s' = s
    · subst h1
      by_cases h2 : s' = x
      · subst h2
        simp only [updateOuter, if_pos rfl, dictLookup,
          innerLookup_updateInner, true_and]
        by_cases h3 : d = y
        · simp [h3]
        · simp [h3]
      · have h3 : ¬ (s' = x ∧ d = y) := fun hc => h2 hc.1
        simp [updateOuter, dictLookup, h2, h3]
    · by_cases h2 : s' = x
      · subst h2
        have h3 : ¬ (s = s' ∧ d = y) := fun hc => h1 hc.1.symm
        simp [updateOuter, dictLookup, h1, h3]
      · simp [updateOuter, dictLookup, h1, h2, ih]

lemma outerKeys_updateOuter (outer : List (String × List (String × Int)))
    (s d : String) (p : Int) :
    (updateOuter outer s d p).map Prod.fst =
      if s ∈ outer.map Prod.fst then outer.map Prod.fst
      else outer.map Prod.fst ++ [s] := by
  induction outer with
  | nil => simp [updateOuter]
  | cons si rest ih =>
    obtain ⟨s', inner⟩ := si
    by_cases h1 : s' = s
    · subst h1
      simp [updateOuter]
    · have h2 : ¬ s = s' := fun he => h1 he.symm
      by_cases hm : s ∈ rest.map Prod.fst
      · simp [updateOuter, h1, ih, hm, h2]
      · simp [updateOuter, h1, ih, hm, h2]

lemma nodup_updateOuter (outer : List (String × List (String × Int)))
    (s d : String) (p : Int) (h : (outer.map Prod.fst).Nodup) :
    ((updateOuter outer s d p).map Prod.fst).Nodup := by
  rw [outerKeys_updateOuter]
  by_cases hm : s ∈ outer.map Prod.fst
  · rwa [if_pos hm]
  · rw [if_neg hm]
    refine List.Nodup.append h (List.nodup_singleton s) ?_
    intro x hx hx'
    rw [List.mem_singleton] at hx'
    subst hx'
    exact hm hx

lemma inner_nodup_updateOuter (outer : List (String × List (String × Int)))
    (s d : String) (p : Int)
    (h : ∀ e ∈ outer, (e.2.map Prod.fst).Nodup) :
    ∀ e ∈ updateOuter outer s d p, (e.2.map Prod.fst).Nodup := by
  induction outer with
  | nil =>
    intro e he
    rw [show updateOuter [] s d p = [(s, updateInner [] d p)] from rfl,
      List.mem_singleton] at he
    subst he
    simp [updateInner]
  | cons si rest ih =>
    obtain ⟨s', inner⟩ := si
    intro e he
    by_cases h1 : s' = s
    · subst h1
      have hstep : updateOuter ((s', inner) :: rest) s' d p =
          (s', updateInner inner d p) :: rest := by
        simp [updateOuter]
      rw [hstep, List.mem_cons] at he
      rcases he with he | he
      · subst he
        exact nodup_updateInner inner d p (h (s', inner) (List.mem_cons_self _ _))
      · exact h e (List.mem_cons_of_mem _ he)
    · have hstep : updateOuter ((s', inner) :: rest) s d p =
          (s', inner) :: updateOuter rest s d p := by
        simp [updateOuter, h1]
      rw [hstep, List.mem_cons] at he
      rcases he with he | he
      · subst he
        exact h (s', inner) (List.mem_cons_self _ _)
      · exact ih (fun e' he' => h e' (List.mem_cons_of_mem _ he')) e he

lemma dictLookup_foldl (rows : List PlayRecord) :
    ∀ (d₀ : List (String × List (String × Int))) (x y : String),
      dictLookup (rows.foldl (fun d r => updateOuter d r.song r.date r.plays) d₀) x y =
        if (x, y) ∈ rows.map keyOf ∨ (dictLookup d₀ x y).isSome = true
        then some ((dictLookup d₀ x y).getD 0 + sumPlays rows (x, y))
        else none := by
  induction rows with
  | nil =>
    intro d₀ x y
    simp only [List.foldl_nil, List.map_nil, List.not_mem_nil, false_or,
      sumPlays_nil, add_zero]
    cases h : dictLookup d₀ x y with
    | none => simp
    | some v => simp
  | cons r rest ih =>
    intro d₀ x y
    rw [List.foldl_cons, ih, dictLookup_updateOuter]
    by_cases hk : r.song = x ∧ r.date = y
    · have hkey : keyOf r = (x, y) := by
        obtain ⟨ha, hb⟩ := hk
        unfold keyOf
        rw [ha, hb]
      rw [if_pos hk]
      rw [if_pos (Or.inr rfl :
        (x, y) ∈ rest.map keyOf ∨
          (some ((dictLookup d₀ x y).getD 0 + r.plays)).isSome = true)]
      rw [if_pos (Or.inl (by
        rw [List.map_cons]
        exact List.mem_cons.mpr (Or.inl hkey.symm)) :
        (x, y) ∈ (r :: rest).map keyOf ∨ (dictLookup d₀ x y).isSome = true)]
      rw [sumPlays_cons, if_pos hkey]
      simp [add_assoc]
    · have hkey : keyOf r ≠ (x, y) := by
        intro hc
        unfold keyOf at hc
        rw [Prod.mk.injEq] at hc
        exact hk hc
      rw [if_neg hk]
      have hcond : ((x, y) ∈ (r :: rest).map keyOf ∨ (dictLookup d₀ x y).isSome = true) ↔
          ((x, y) ∈ rest.map keyOf ∨ (dictLookup d₀ x y).isSome = true) := by
        rw [List.map_cons, List.mem_cons]
        constructor
        · rintro (hm | hm)
          · rcases hm with hm | hm
            · exact absurd hm.symm hkey
            · exact Or.inl hm
          · exact Or.inr hm
        · rintro (hm | hm)
          · exact Or.inl (Or.inr hm)
          · exact Or.inr hm
      rw [sumPlays_cons, if_neg hkey, zero_add]
      by_cases hc : (x, y) ∈ rest.map keyOf ∨ (dictLookup d₀ x y).isSome = true
      · rw [if_pos hc, if_pos (hcond.mpr hc)]
      · rw [if_neg hc, if_neg (fun hh => hc (hcond.mp hh))]

lemma dictLookup_buildDict (rows : List PlayRecord) (x y : String) :
    dictLookup (buildDict rows) x y =
      if (x, y) ∈ rows.map keyOf then some (sumPlays rows (x, y)) else none := by
  unfold buildDict
  rw [dictLookup_foldl rows [] x y]
  simp [dictLookup]

lemma foldl_outer_nodup (rows : List PlayRecord) :
    ∀ d₀, (d₀.map Prod.fst).Nodup →
      ((rows.foldl (fun d r => updateOuter d r.song r.date r.plays) d₀).map
        Prod.fst).Nodup := by
  induction rows with
  | nil => intro d₀ h; simpa using h
  | cons r rest ih =>
    intro d₀ h
    rw [List.foldl_cons]
    exact ih _ (nodup_updateOuter d₀ r.song r.date r.plays h)

lemma foldl_inner_nodup (rows : List PlayRecord) :
    ∀ d₀, (∀ e ∈ d₀, (e.2.map Prod.fst).Nodup) →
      ∀ e ∈ rows.foldl (fun d r => updateOuter d r.song r.date r.plays) d₀,
        (e.2.map Prod.fst).Nodup := by
  induction rows with
  | nil => intro d₀ h; simpa using h
  | cons r rest ih =>
    intro d₀ h
    rw [List.foldl_cons]
    exact ih _ (inner_nodup_updateOuter d₀ r.song r.date r.plays h)

lemma buildDict_outer_nodup (rows : List PlayRecord) :
    ((buildDict rows).map Prod.fst).Nodup :=
  foldl_outer_nodup rows [] (by simp)

lemma buildDict_inner_nodup (rows : List PlayRecord) :
    ∀ e ∈ buildDict rows, (e.2.map Prod.fst).Nodup :=
  foldl_inner_nodup rows [] (by simp)

lemma fst_mem_of_mem_flattenDict (outer : List (String × List (String × Int))) :
    ∀ t ∈ flattenDict outer, t.1 ∈ outer.map Prod.fst := by
  induction outer with
  | nil => intro t ht; cases ht
  | cons si rest ih =>
    obtain ⟨s', inner⟩ := si
    intro t ht
    have hstep : flattenDict ((s', inner) :: rest) =
        (inner.map fun dv => (s', dv.1, dv.2)) ++ flattenDict rest := rfl
    rw [hstep, List.mem_append] at ht
    rcases ht with ht | ht
    · rcases List.mem_map.mp ht with ⟨dv, _, hdv⟩
      rw [List.map_cons, List.mem_cons]
      left
      rw [← hdv]
    · exact List.mem_cons_of_mem _ (ih t ht)

lemma flattenDict_mem_iff_lookup (outer : List (String × List (String × Int))) :
    (outer.map Prod.fst).Nodup →
    (∀ e ∈ outer, (e.2.map Prod.fst).Nodup) →
    ∀ (s d : String) (v : Int),
      ((s, d, v) ∈ flattenDict outer ↔ dictLookup outer s d = some v) := by
  induction outer with
  | nil => intro _ _ s d v; simp [flattenDict, dictLookup]
  | cons si rest ih =>
    obtain ⟨s', inner⟩ := si
    intro hn hi s d v
    have hstep : flattenDict ((s', inner) :: rest) =
        (inner.map fun dv => (s', dv.1, dv.2)) ++ flattenDict rest := rfl
    rw [hstep, List.mem_append]
    rw [List.map_cons, List.nodup_cons] at hn
    by_cases h1 : s' = s
    · subst h1
      have hlook : dictLookup ((s', inner) :: rest) s' d = innerLookup inner d := by
        simp [dictLookup]
      rw [hlook]
      constructor
      · rintro (hm | hm)
        · rcases List.mem_map.mp hm with ⟨dv, hdv, hedv⟩
          have hdveq : dv = (d, v) := by
            rw [Prod.mk.injEq, Prod.mk.injEq] at hedv
            exact Prod.ext hedv.2.1 hedv.2.2
          subst hdveq
          exact (innerLookup_mem_iff inner
            (hi (s', inner) (List.mem_cons_self _ _)) d v).mp hdv
        · exact absurd (fst_mem_of_mem_flattenDict rest (s', d, v) hm) hn.1
      · intro hl
        left
        exact List.mem_map.mpr ⟨(d, v),
          (innerLookup_mem_iff inner
            (hi (s', inner) (List.mem_cons_self _ _)) d v).mpr hl, rfl⟩
    · have hlook : dictLookup ((s', inner) :: rest) s d = dictLookup rest s d := by
        simp [dictLookup, h1]
      rw [hlook, ← ih hn.2 (fun e he => hi e (List.mem_cons_of_mem _ he)) s d v]
      constructor
      · rintro (hm | hm)
        · exfalso
          rcases List.mem_map.mp hm with ⟨dv, _, hedv⟩
          rw [Prod.mk.injEq] at hedv
          exact h1 hedv.1
        · exact hm
      · exact Or.inr

lemma flattenDict_keys_nodup (outer : List (String × List (String × Int))) :
    (outer.map Prod.fst).Nodup →
    (∀ e ∈ outer, (e.2.map Prod.fst).Nodup) →
    ((flattenDict outer).map mapKey).Nodup := by
  induction outer with
  | nil => intro _ _; simp [flattenDict]
  | cons si rest ih =>
    obtain ⟨s', inner⟩ := si
    intro hn hi
    have hstep : flattenDict ((s', inner) :: rest) =
        (inner.map fun dv => (s', dv.1, dv.2)) ++ flattenDict rest := rfl
    rw [hstep, List.map_append]
    rw [List.map_cons, List.nodup_cons] at hn
    refine List.Nodup.append ?_
      (ih hn.2 (fun e he => hi e (List.mem_cons_of_mem _ he))) ?_
    · have hcomp : ((inner.map fun dv => (s', dv.1, dv.2)).map mapKey) =
          ((inner.map Prod.fst).map fun d => (s', d)) := by
        rw [List.map_map, List.map_map]
        rfl
      rw [hcomp]
      refine List.Nodup.map ?_ (hi (s', inner) (List.mem_cons_self _ _))
      intro a b hab
      rw [Prod.mk.injEq] at hab
      exact hab.2
    · intro k hk1 hk2
      rcases List.mem_map.mp hk1 with ⟨t, ht, hkt⟩
      rcases List.mem_map.mp ht with ⟨dv, _, hdvt⟩
      rcases List.mem_map.mp hk2 with ⟨t2, ht2, hkt2⟩
      have h1 : k.1 = s' := by rw [← hkt, ← hdvt]; rfl
      have h2 : k.1 ∈ rest.map Prod.fst := by
        rw [← hkt2]
        exact fst_mem_of_mem_flattenDict rest t2 ht2
      rw [h1] at h2
      exact hn.1 h2

lemma flattenDict_buildDict_mem (rows : List PlayRecord)
    (t : String × String × Int) :
    t ∈ flattenDict (buildDict rows) ↔
      (t.1, t.2.1) ∈ rows.map keyOf ∧ t.2.2 = sumPlays rows (t.1, t.2.1) := by
  obtain ⟨s, d, v⟩ := t
  rw [flattenDict_mem_iff_lookup (buildDict rows) (buildDict_outer_nodup rows)
    (buildDict_inner_nodup rows) s d v]
  rw [dictLookup_buildDict rows s d]
  by_cases h : (s, d) ∈ rows.map keyOf
  · rw [if_pos h]
    simp only [Option.some.injEq]
    constructor
    · intro he; exact ⟨h, he.symm⟩
    · intro he; exact he.2.symm
  · rw [if_neg h]
    simp only [reduceCtorEq, false_iff, not_and]
    intro hc
    exact absurd hc h

/-- The sorted flattened dict of the in-memory implementation coincides with
the grouped, summed and sorted query result of the store-backed one. -/
lemma helperAgg_eq_fetchSortedAll (rows : List PlayRecord) :
    List.insertionSort tripleLe (flattenDict (buildDict rows)) =
      fetchSortedAll rows := by
  have hSperm : (List.insertionSort tripleLe (flattenDict (buildDict rows))).Perm
      (flattenDict (buildDict rows)) :=
    List.perm_insertionSort tripleLe (flattenDict (buildDict rows))
  have hkeysNodupF : ((flattenDict (buildDict rows)).map mapKey).Nodup :=
    flattenDict_keys_nodup (buildDict rows) (buildDict_outer_nodup rows)
      (buildDict_inner_nodup rows)
  have hkeysNodupS :
      ((List.insertionSort tripleLe (flattenDict (buildDict rows))).map mapKey).Nodup :=
    ((hSperm.map mapKey).symm).nodup hkeysNodupF
  have hsortS : List.Pairwise keyLe
      ((List.insertionSort tripleLe (flattenDict (buildDict rows))).map mapKey) :=
    List.pairwise_map.mpr
      ((List.sorted_insertionSort tripleLe (flattenDict (buildDict rows))).imp
        fun h => h)
  have hK : (List.insertionSort tripleLe (flattenDict (buildDict rows))).map mapKey =
      List.insertionSort keyLe (groupKeys rows) := by
    refine List.eq_of_perm_of_sorted ?_ hsortS
      (List.sorted_insertionSort keyLe (groupKeys rows))
    refine (List.perm_ext_iff_of_nodup hkeysNodupS
      (((List.perm_insertionSort keyLe (groupKeys rows)).symm).nodup
        (List.nodup_dedup _))).mpr ?_
    intro k
    rw [(hSperm.map mapKey).mem_iff,
      (List.perm_insertionSort keyLe (groupKeys rows)).mem_iff, groupKeys,
      List.mem_dedup]
    constructor
    · intro hk
      rcases List.mem_map.mp hk with ⟨t, ht, hkt⟩
      have := (flattenDict_buildDict_mem rows t).mp ht
      rw [← hkt]
      exact this.1
    · intro hk
      refine List.mem_map.mpr ⟨(k.1, k.2, sumPlays rows (k.1, k.2)), ?_, rfl⟩
      rw [flattenDict_buildDict_mem rows (k.1, k.2, sumPlays rows (k.1, k.2))]
      exact ⟨hk, rfl⟩
  have hS : List.insertionSort tripleLe (flattenDict (buildDict rows)) =
      ((List.insertionSort tripleLe (flattenDict (buildDict rows))).map mapKey).map
        fun k => (k.1, k.2, sumPlays rows k) := by
    rw [List.map_map]
    have hcongr : ∀ t ∈ List.insertionSort tripleLe (flattenDict (buildDict rows)),
        ((fun k : String × String => (k.1, k.2, sumPlays rows k)) ∘ mapKey) t = id t := by
      intro t ht
      have htF : t ∈ flattenDict (buildDict rows) := hSperm.mem_iff.mp ht
      have := (flattenDict_buildDict_mem rows t).mp htF
      obtain ⟨s, d, v⟩ := t
      simp only [Function.comp, mapKey, id]
      rw [Prod.mk.injEq, Prod.mk.injEq]
      exact ⟨rfl, rfl, this.2.symm⟩
    rw [List.map_congr_left hcongr, List.map_id]
  rw [hS, hK]
  rfl

lemma helperIngest_ok (rs : List (List String)) :
    ∀ d, (∀ row ∈ rs, (parseRow row).isSome) →
      helperIngest rs d = .ok
        ((rs.filterMap parseRow).foldl
          (fun d' r => updateOuter d' r.song r.date r.plays) d) := by
  induction rs with
  | nil => intro d _; simp [helperIngest]
  | cons row rest ih =>
    intro d hw
    have h0 : (parseRow row).isSome := hw row (List.mem_cons_self row rest)
    rcases Option.isSome_iff_exists.mp h0 with ⟨r, hr⟩
    simp only [helperIngest, hr]
    rw [ih _ (fun x hx => hw x (List.mem_cons_of_mem _ hx))]
    simp [List.filterMap_cons, hr]

/-- On a well-formed input the in-memory and the store-backed implementation
produce the same run result. -/
lemma helper_eq_process (store₀ : List PlayRecord) (header : List String)
    (dataRows : List (List String))
    (hw : ∀ row ∈ dataRows, (parseRow row).isSome) :
    helper_process_csv (header :: dataRows) =
      process_csv Env.ok store₀ (header :: dataRows) := by
  have h1 : helper_process_csv (header :: dataRows) =
      match helperIngest dataRows [] with
      | .error e => ⟨none, some e⟩
      | .ok d => ⟨some (outputHeader ::
          (List.insertionSort tripleLe (flattenDict d)).map outRow), none⟩ := rfl
  have hstep : helper_process_csv (header :: dataRows) =
      ⟨some (outputHeader ::
        (List.insertionSort tripleLe
          (flattenDict (buildDict (dataRows.filterMap parseRow)))).map outRow),
        none⟩ := by
    rw [h1, helperIngest_ok dataRows [] hw]
    rfl
  rw [hstep, process_csv_ok store₀ header dataRows hw,
    helperAgg_eq_fetchSortedAll (dataRows.filterMap parseRow)]

/-- Concrete run with a store read fault on the first fetch: ingestion of a
header-only file succeeds, the output file is created with the header row,
then the first `fetch_sorted_data` call raises, leaving the partial file. -/
lemma process_storeRead_run :
    process_csv ⟨none, some 0⟩ [] [["h"]] =
      ⟨some [outputHeader], some ProcErr.storeRead⟩ := by
  have h2 : process_csv ⟨none, some 0⟩ [] [["h"]] =
      match writePages ⟨none, some 0⟩ [] 500 0 0 [] with
      | (written, some e) => ⟨some (outputHeader :: written), some e⟩
      | (written, none) => ⟨some (outputHeader :: written), none⟩ := rfl
  have h3 : writePages ⟨none, some 0⟩ [] 500 0 0 [] = ([], some .storeRead) := by
    rw [writePages.eq_def]
    simp
  rw [h2, h3]

/-- Every run either fails during ingestion — output artifact never created,
error distinct from a store read fault — or creates the output artifact, in
which case the run either completed or stopped at a store read fault. -/
lemma process_csv_cases (env : Env) (store₀ : List PlayRecord)
    (contents : List (List String)) :
    ((process_csv env store₀ contents).output = none ∧
      ∃ e, (process_csv env store₀ contents).err = some e ∧ e ≠ ProcErr.storeRead) ∨
    (∃ w, (process_csv env store₀ contents).output = some w ∧
      ((process_csv env store₀ contents).err = none ∨
        (process_csv env store₀ contents).err = some ProcErr.storeRead)) := by
  cases contents with
  | nil => exact Or.inl ⟨rfl, ProcErr.missingHeader, rfl, by decide⟩
  | cons header dataRows =>
    have hstep : process_csv env store₀ (header :: dataRows) =
        match ingestRows env dataRows 0 (clear_db (init_db store₀)) with
        | .error e => ⟨none, some e⟩
        | .ok store =>
          match writePages env store 500 0 0 [] with
          | (written, some e) => ⟨some (outputHeader :: written), some e⟩
          | (written, none) => ⟨some (outputHeader :: written), none⟩ := rfl
    cases hing : ingestRows env dataRows 0 (clear_db (init_db store₀)) with
    | error e =>
      rw [hstep, hing]
      exact Or.inl ⟨rfl, e, rfl, ingestRows_err_ne_storeRead env dataRows 0 _ e hing⟩
    | ok store =>
      have hstep2 : process_csv env store₀ (header :: dataRows) =
          match writePages env store 500 0 0 [] with
          | (written, some e) => ⟨some (outputHeader :: written), some e⟩
          | (written, none) => ⟨some (outputHeader :: written), none⟩ := by
        rw [hstep, hing]
      rcases hwp : writePages env store 500 0 0 [] with ⟨written, oerr⟩
      cases oerr with
      | none =>
        rw [hstep2, hwp]
        exact Or.inr ⟨outputHeader :: written, rfl, Or.inl rfl⟩
      | some e =>
        rw [hstep2, hwp]
        have he := writePages_err env store 500 0 0 [] written e hwp
        subst he
        exact Or.inr ⟨outputHeader :: written, rfl, Or.inr rfl⟩

/-! Claim theorems. -/

/-- C4: for every task id, polling returns Complete with the artifact's
contents exactly when `{task_id}_output.csv` exists, Processing exactly when
`{task_id}_input.csv` exists while the output artifact does not, and
NotFound exactly when neither artifact exists. -/
theorem C4_poll_trichotomy (fs : Fs) (tid : String) :
    (∀ c, pollStatus fs tid = PollResult.Complete c ↔
      fs (output_artifact_name tid) = some c) ∧
    (pollStatus fs tid = PollResult.Processing ↔
      (fs (input_artifact_name tid)).isSome = true ∧
        fs (output_artifact_name tid) = none) ∧
    (pollStatus fs tid = PollResult.NotFound ↔
      fs (input_artifact_name tid) = none ∧
        fs (output_artifact_name tid) = none) := by
  unfold pollStatus get_result
  cases ho : fs (output_artifact_name tid) with
  | some c0 =>
    refine ⟨fun c => ?_, ?_, ?_⟩ <;> simp
  | none =>
    cases hi : fs (input_artifact_name tid) with
    | some ic => refine ⟨fun c => ?_, ?_, ?_⟩ <;> simp
    | none => refine ⟨fun c => ?_, ?_, ?_⟩ <;> simp

/-- C5: for every staged store and positive page size, concatenating the
pages from offset 0 until the first empty page is exactly the full grouped,
summed and sorted result; each page holds at most `limit` grouped rows; and
any page whose offset is at least the number of distinct (song, date) groups
is empty. -/
theorem C5_pagination_law (store : List PlayRecord) (limit : Nat)
    (hl : 0 < limit) :
    fetchPages store limit 0 = fetchSortedAll store ∧
    (∀ offset, (fetch_sorted_data store limit offset).length ≤ limit) ∧
    (∀ offset, ((store.map keyOf).dedup).length ≤ offset →
      fetch_sorted_data store limit offset = []) := by
  refine ⟨?_, ?_, ?_⟩
  · rw [fetchPages_eq store limit hl 0, List.drop_zero]
  · intro offset
    unfold fetch_sorted_data
    exact List.length_take_le limit _
  · intro offset hoff
    have hlen : (fetchSortedAll store).length = ((store.map keyOf).dedup).length := by
      unfold fetchSortedAll
      rw [List.length_map]
      exact (List.perm_insertionSort keyLe (groupKeys store)).length_eq
    unfold fetch_sorted_data
    rw [List.drop_eq_nil_iff.mpr (by omega), List.take_nil]

/-- C5 witness: the pagination law applied with page size 1 to a concrete
two-row store. -/
theorem C5_pagination_law_witness :
    0 < 1 ∧
    (fetchPages [⟨"A", "d", 2⟩, ⟨"A", "d", 3⟩] 1 0 =
      fetchSortedAll [⟨"A", "d", 2⟩, ⟨"A", "d", 3⟩] ∧
    (∀ offset,
      (fetch_sorted_data [⟨"A", "d", 2⟩, ⟨"A", "d", 3⟩] 1 offset).length ≤ 1) ∧
    (∀ offset,
      (([⟨"A", "d", 2⟩, ⟨"A", "d", 3⟩].map keyOf).dedup).length ≤ offset →
      fetch_sorted_data [⟨"A", "d", 2⟩, ⟨"A", "d", 3⟩] 1 offset = [])) :=
  ⟨by decide, C5_pagination_law [⟨"A", "d", 2⟩, ⟨"A", "d", 3⟩] 1 (by decide)⟩

/-- C7: the staging-store reset is idempotent, and because every run resets
the store before ingesting anything, the outcome of a run never depends on
rows staged by a previous task. -/
theorem C7_reset_isolation :
    (∀ store, clear_db (clear_db store) = clear_db store) ∧
    (∀ env store₀ store₁ input,
      process_csv env store₀ input = process_csv env store₁ input) := by
  refine ⟨fun store => rfl, fun env store₀ store₁ input => ?_⟩
  cases input with
  | nil => rfl
  | cons h t => rfl

/-- C8: an upload request with no file part or with an empty filename is
rejected with a 400-equivalent response before any task exists: no task id
is issued, and no artifact is written. -/
theorem C8_empty_upload_rejected
    (filePart : Option (String × List (List String))) (tid : String)
    (h : filePart = none ∨ ∃ c, filePart = some ("", c)) :
    (∃ m, (upload_file filePart tid).1 = UploadResponse.badRequest m) ∧
    (upload_file filePart tid).2.1 = none ∧
    (∀ name, (upload_file filePart tid).2.2 name = none) := by
  rcases h with h | ⟨c, h⟩ <;> subst h
  · exact ⟨⟨"No file part in the request", rfl⟩, rfl, fun _ => rfl⟩
  · exact ⟨⟨"No selected file", by simp [upload_file]⟩, by simp [upload_file],
      fun name => by simp [upload_file]⟩

/-- C8 witness: a request with no file part is rejected and leaves no trace. -/
theorem C8_empty_upload_rejected_witness :
    ((none : Option (String × List (List String))) = none ∨
      ∃ c, (none : Option (String × List (List String))) = some ("", c)) ∧
    ((∃ m, (upload_file none "t").1 = UploadResponse.badRequest m) ∧
    (upload_file none "t").2.1 = none ∧
    (∀ name, (upload_file none "t").2.2 name = none)) :=
  ⟨Or.inl rfl, C8_empty_upload_rejected none "t" (Or.inl rfl)⟩

/-- C1: on an input file whose data rows are all well-formed (at least three
fields, integer plays) the background run completes and writes the header
followed by the aggregated rows; the output's (song, date) keys are exactly
the distinct keys of the input, each exactly once; each total is the exact
sum of the plays with that key, and the grand total of plays is preserved;
the rows are strictly sorted ascending by song then date under ordinal
string comparison; and zero data rows yield zero output data rows. -/
theorem C1_aggregation_correct (store₀ : List PlayRecord) (header : List String)
    (dataRows : List (List String))
    (hw : ∀ row ∈ dataRows, (parseRow row).isSome = true) :
    process_csv Env.ok store₀ (header :: dataRows) =
      ⟨some (outputHeader ::
        (fetchSortedAll (dataRows.filterMap parseRow)).map outRow), none⟩ ∧
    ((fetchSortedAll (dataRows.filterMap parseRow)).map mapKey).Nodup ∧
    (∀ k, k ∈ (fetchSortedAll (dataRows.filterMap parseRow)).map mapKey ↔
      k ∈ (dataRows.filterMap parseRow).map keyOf) ∧
    (∀ t ∈ fetchSortedAll (dataRows.filterMap parseRow),
      t.2.2 = sumPlays (dataRows.filterMap parseRow) (t.1, t.2.1)) ∧
    ((fetchSortedAll (dataRows.filterMap parseRow)).map fun t => t.2.2).sum =
      ((dataRows.filterMap parseRow).map PlayRecord.plays).sum ∧
    List.Pairwise keyLt
      ((fetchSortedAll (dataRows.filterMap parseRow)).map mapKey) ∧
    (dataRows = [] →
      (process_csv Env.ok store₀ (header :: dataRows)).output =
        some [outputHeader]) := by
  refine ⟨process_csv_ok store₀ header dataRows hw,
    fetchSortedAll_keys_nodup _,
    fun k => fetchSortedAll_mem_keys _ k,
    fun t ht => congrArg (fun x : String × String × Int => x.2.2)
      (fetchSortedAll_values _ t ht),
    fetchSortedAll_sum _,
    fetchSortedAll_sorted _,
    ?_⟩
  intro hde
  subst hde
  rw [process_csv_ok store₀ header [] hw]
  rfl

/-- C1 witness: the aggregation contract applied to a concrete three-row
input file. -/
theorem C1_aggregation_correct_witness :
    (∀ row ∈ [["B", "d2", "3"], ["A", "d1", "10"], ["A", "d1", "5"]],
      (parseRow row).isSome = true) ∧
    (process_csv Env.ok [] (["Song", "Date", "Plays"] ::
        [["B", "d2", "3"], ["A", "d1", "10"], ["A", "d1", "5"]]) =
      ⟨some (outputHeader ::
        (fetchSortedAll ([["B", "d2", "3"], ["A", "d1", "10"],
          ["A", "d1", "5"]].filterMap parseRow)).map outRow), none⟩ ∧
    ((fetchSortedAll ([["B", "d2", "3"], ["A", "d1", "10"],
      ["A", "d1", "5"]].filterMap parseRow)).map mapKey).Nodup ∧
    (∀ k, k ∈ (fetchSortedAll ([["B", "d2", "3"], ["A", "d1", "10"],
        ["A", "d1", "5"]].filterMap parseRow)).map mapKey ↔
      k ∈ ([["B", "d2", "3"], ["A", "d1", "10"],
        ["A", "d1", "5"]].filterMap parseRow).map keyOf) ∧
    (∀ t ∈ fetchSortedAll ([["B", "d2", "3"], ["A", "d1", "10"],
        ["A", "d1", "5"]].filterMap parseRow),
      t.2.2 = sumPlays ([["B", "d2", "3"], ["A", "d1", "10"],
        ["A", "d1", "5"]].filterMap parseRow) (t.1, t.2.1)) ∧
    ((fetchSortedAll ([["B", "d2", "3"], ["A", "d1", "10"],
        ["A", "d1", "5"]].filterMap parseRow)).map fun t => t.2.2).sum =
      (([["B", "d2", "3"], ["A", "d1", "10"],
        ["A", "d1", "5"]].filterMap parseRow).map PlayRecord.plays).sum ∧
    List.Pairwise keyLt ((fetchSortedAll ([["B", "d2", "3"], ["A", "d1", "10"],
      ["A", "d1", "5"]].filterMap parseRow)).map mapKey) ∧
    ([["B", "d2", "3"], ["A", "d1", "10"], ["A", "d1", "5"]] =
        ([] : List (List String)) →
      (process_csv Env.ok [] (["Song", "Date", "Plays"] ::
        [["B", "d2", "3"], ["A", "d1", "10"], ["A", "d1", "5"]])).output =
        some [outputHeader])) :=
  ⟨by decide, C1_aggregation_correct [] ["Song", "Date", "Plays"]
    [["B", "d2", "3"], ["A", "d1", "10"], ["A", "d1", "5"]] (by decide)⟩

/-- C2: an input containing a data row with fewer than three fields or a
non-integer plays field makes the background run fail with the
MalformedRowError of such a row (the first one), and no output artifact is
produced. -/
theorem C2_malformed_row_error (store₀ : List PlayRecord) (header : List String)
    (dataRows : List (List String))
    (hbad : ∃ row ∈ dataRows, parseRow row = none) :
    ∃ row ∈ dataRows, parseRow row = none ∧
      (process_csv Env.ok store₀ (header :: dataRows)).err =
        some (ProcErr.malformedRow row) ∧
      (process_csv Env.ok store₀ (header :: dataRows)).output = none := by
  rcases ingestRows_first_bad Env.ok rfl dataRows 0 (clear_db (init_db store₀))
    hbad with ⟨row, hm, hn, heq⟩
  have hstep : process_csv Env.ok store₀ (header :: dataRows) =
      ⟨none, some (ProcErr.malformedRow row)⟩ := by
    have h1 : process_csv Env.ok store₀ (header :: dataRows) =
        match ingestRows Env.ok dataRows 0 (clear_db (init_db store₀)) with
        | .error e => ⟨none, some e⟩
        | .ok store =>
          match writePages Env.ok store 500 0 0 [] with
          | (written, some e) => ⟨some (outputHeader :: written), some e⟩
          | (written, none) => ⟨some (outputHeader :: written), none⟩ := rfl
    rw [h1, heq]
  exact ⟨row, hm, hn, by rw [hstep], by rw [hstep]⟩

/-- C2 witness: a data row with a non-integer plays field aborts the run with
its MalformedRowError. -/
theorem C2_malformed_row_error_witness :
    (∃ row ∈ [["A", "d", "abc"]], parseRow row = none) ∧
    (∃ row ∈ [["A", "d", "abc"]], parseRow row = none ∧
      (process_csv Env.ok [] (["h"] :: [["A", "d", "abc"]])).err =
        some (ProcErr.malformedRow row) ∧
      (process_csv Env.ok [] (["h"] :: [["A", "d", "abc"]])).output = none) :=
  ⟨by decide, C2_malformed_row_error [] ["h"] [["A", "d", "abc"]] (by decide)⟩

/-- C6: a task's artifacts are named exactly `{task_id}_input.csv` and
`{task_id}_output.csv` and no other file belongs to the task; on a
well-formed upload the output artifact is the header row — whose CSV
serialisation is exactly `Song,Date,Total Number of Plays for Date` —
followed by one row per distinct (song, date) pair with fields song, date,
total_plays in that order, strictly sorted ascending by song then date. -/
theorem C6_artifact_naming_format (store₀ : List PlayRecord) (tid : String)
    (header : List String) (dataRows : List (List String))
    (hw : ∀ row ∈ dataRows, (parseRow row).isSome = true) :
    handle_file_upload tid =
      ⟨tid, tid ++ "_input.csv", tid ++ "_output.csv"⟩ ∧
    runTask Env.ok store₀ tid (header :: dataRows) (tid ++ "_input.csv") =
      some (header :: dataRows) ∧
    runTask Env.ok store₀ tid (header :: dataRows) (tid ++ "_output.csv") =
      some (outputHeader ::
        (fetchSortedAll (dataRows.filterMap parseRow)).map outRow) ∧
    (∀ name, name ≠ tid ++ "_input.csv" → name ≠ tid ++ "_output.csv" →
      runTask Env.ok store₀ tid (header :: dataRows) name = none) ∧
    serializeRow outputHeader = "Song,Date,Total Number of Plays for Date" ∧
    (∀ t ∈ fetchSortedAll (dataRows.filterMap parseRow),
      outRow t = [t.1, t.2.1, toString t.2.2]) ∧
    List.Pairwise keyLt
      ((fetchSortedAll (dataRows.filterMap parseRow)).map mapKey) := by
  refine ⟨rfl, runTask_input Env.ok store₀ tid (header :: dataRows), ?_,
    fun name h1 h2 => runTask_other Env.ok store₀ tid (header :: dataRows)
      name h1 h2,
    rfl, fun t _ => rfl, fetchSortedAll_sorted _⟩
  rw [show tid ++ "_output.csv" = output_artifact_name tid from rfl,
    runTask_output, process_csv_ok store₀ header dataRows hw]

/-- C6 witness: naming and output format on a concrete well-formed upload. -/
theorem C6_artifact_naming_format_witness :
    (∀ row ∈ [["A", "d", "1"]], (parseRow row).isSome = true) ∧
    (handle_file_upload "t" = ⟨"t", "t" ++ "_input.csv", "t" ++ "_output.csv"⟩ ∧
    runTask Env.ok [] "t" (["h"] :: [["A", "d", "1"]]) ("t" ++ "_input.csv") =
      some (["h"] :: [["A", "d", "1"]]) ∧
    runTask Env.ok [] "t" (["h"] :: [["A", "d", "1"]]) ("t" ++ "_output.csv") =
      some (outputHeader ::
        (fetchSortedAll ([["A", "d", "1"]].filterMap parseRow)).map outRow) ∧
    (∀ name, name ≠ "t" ++ "_input.csv" → name ≠ "t" ++ "_output.csv" →
      runTask Env.ok [] "t" (["h"] :: [["A", "d", "1"]]) name = none) ∧
    serializeRow outputHeader = "Song,Date,Total Number of Plays for Date" ∧
    (∀ t ∈ fetchSortedAll ([["A", "d", "1"]].filterMap parseRow),
      outRow t = [t.1, t.2.1, toString t.2.2]) ∧
    List.Pairwise keyLt
      ((fetchSortedAll ([["A", "d", "1"]].filterMap parseRow)).map mapKey)) :=
  ⟨by decide, C6_artifact_naming_format [] "t" ["h"] [["A", "d", "1"]] (by decide)⟩

/-- C3 counterexample: a store read failure on the first fetch call aborts
the run, yet an output artifact (the already-written header row) exists and
polling returns Complete with the truncated file — not Processing — so the
claim that every asynchronous failure leaves no artifact and polls
Processing indefinitely is false. -/
theorem C3_counterexample :
    (process_csv ⟨none, some 0⟩ [] [["h"]]).err = some ProcErr.storeRead ∧
    (process_csv ⟨none, some 0⟩ [] [["h"]]).output = some [outputHeader] ∧
    pollStatus (runTask ⟨none, some 0⟩ [] "t" [["h"]]) "t" =
      PollResult.Complete [outputHeader] := by
  refine ⟨by rw [process_storeRead_run], by rw [process_storeRead_run], ?_⟩
  rw [pollStatus_runTask, process_storeRead_run]

/-- C3 (amended): a failure during the ingestion phase — missing header row,
malformed row, or store write failure — produces no output artifact, is only
recorded internally (logged) with no caller-visible failure state, and
polling returns Processing ever after; a store read failure during the
output-writing phase instead leaves a partially written output artifact, and
polling then returns Complete with its truncated contents. -/
theorem C3_async_failure (env : Env) (store₀ : List PlayRecord) (tid : String)
    (contents : List (List String)) :
    (∀ e, (process_csv env store₀ contents).err = some e →
      e ≠ ProcErr.storeRead →
      (process_csv env store₀ contents).output = none ∧
      pollStatus (runTask env store₀ tid contents) tid =
        PollResult.Processing) ∧
    ((process_csv env store₀ contents).err = some ProcErr.storeRead →
      ∃ w, (process_csv env store₀ contents).output = some w ∧
        pollStatus (runTask env store₀ tid contents) tid =
          PollResult.Complete w) := by
  constructor
  · intro e he hne
    rcases process_csv_cases env store₀ contents with ⟨hout, _⟩ | ⟨w, hout, herr⟩
    · refine ⟨hout, ?_⟩
      rw [pollStatus_runTask, hout]
    · exfalso
      rcases herr with herr | herr
      · rw [herr] at he
        cases he
      · rw [herr] at he
        cases he
        exact hne rfl
  · intro he
    rcases process_csv_cases env store₀ contents with ⟨hout, e', he', hne'⟩ |
      ⟨w, hout, _⟩
    · exfalso
      rw [he] at he'
      cases he'
      exact hne' rfl
    · refine ⟨w, hout, ?_⟩
      rw [pollStatus_runTask, hout]

/-- C3 witness: the amended behaviour at two concrete runs — a malformed-row
failure polls Processing with no artifact, a store-read failure polls
Complete with the partial artifact. -/
theorem C3_async_failure_witness :
    ((process_csv Env.ok [] [["h"], ["x"]]).output = none ∧
      pollStatus (runTask Env.ok [] "t" [["h"], ["x"]]) "t" =
        PollResult.Processing) ∧
    (∃ w, (process_csv ⟨none, some 0⟩ [] [["h"]]).output = some w ∧
      pollStatus (runTask ⟨none, some 0⟩ [] "u" [["h"]]) "u" =
        PollResult.Complete w) :=
  ⟨(C3_async_failure Env.ok [] "t" [["h"], ["x"]]).1
      (ProcErr.malformedRow ["x"]) (by decide) (by decide),
    (C3_async_failure ⟨none, some 0⟩ [] "u" [["h"]]).2
      (by rw [process_storeRead_run])⟩

/-- C9: on an input file whose data rows are all well-formed, the in-memory
implementation of `helpers/csv_processor.py` and the store-backed
implementation of `app/utils.py` produce identical run results, and in
particular byte-identical serialised output files. -/
theorem C9_refinement (store₀ : List PlayRecord) (header : List String)
    (dataRows : List (List String))
    (hw : ∀ row ∈ dataRows, (parseRow row).isSome = true) :
    helper_process_csv (header :: dataRows) =
      process_csv Env.ok store₀ (header :: dataRows) ∧
    ((helper_process_csv (header :: dataRows)).output.map fun rows =>
        rows.map serializeRow) =
      ((process_csv Env.ok store₀ (header :: dataRows)).output.map fun rows =>
        rows.map serializeRow) := by
  have h := helper_eq_process store₀ header dataRows hw
  exact ⟨h, by rw [h]⟩

/-- C9 witness: the two implementations agree on a concrete three-row
upload. -/
theorem C9_refinement_witness :
    (∀ row ∈ [["B", "d2", "3"], ["A", "d1", "10"], ["A", "d1", "5"]],
      (parseRow row).isSome = true) ∧
    (helper_process_csv (["h"] ::
        [["B", "d2", "3"], ["A", "d1", "10"], ["A", "d1", "5"]]) =
      process_csv Env.ok [] (["h"] ::
        [["B", "d2", "3"], ["A", "d1", "10"], ["A", "d1", "5"]]) ∧
    ((helper_process_csv (["h"] ::
        [["B", "d2", "3"], ["A", "d1", "10"], ["A", "d1", "5"]])).output.map
          fun rows => rows.map serializeRow) =
      ((process_csv Env.ok [] (["h"] ::
        [["B", "d2", "3"], ["A", "d1", "10"], ["A", "d1", "5"]])).output.map
          fun rows => rows.map serializeRow)) :=
  ⟨by decide, C9_refinement [] ["h"]
    [["B", "d2", "3"], ["A", "d1", "10"], ["A", "d1", "5"]] (by decide)⟩

/-- C10: a completely empty uploaded file (no rows at all) is accepted by the
upload route and gets a task id, but the background run fails reading the
missing header row, so no output artifact is ever produced and polling stays
at Processing — unlike a header-only input, which completes with a
header-only output artifact and polls Complete. -/
theorem C10_empty_file_stuck (store₀ : List PlayRecord) (tid fname : String)
    (hf : fname ≠ "") :
    (upload_file (some (fname, [])) tid).1 = UploadResponse.accepted tid ∧
    (process_csv Env.ok store₀ []).output = none ∧
    (process_csv Env.ok store₀ []).err = some ProcErr.missingHeader ∧
    pollStatus (runTask Env.ok store₀ tid []) tid = PollResult.Processing ∧
    (∀ header, process_csv Env.ok store₀ [header] = ⟨some [outputHeader], none⟩ ∧
      pollStatus (runTask Env.ok store₀ tid [header]) tid =
        PollResult.Complete [outputHeader]) := by
  refine ⟨by simp [upload_file, hf], rfl, rfl, ?_, ?_⟩
  · rw [pollStatus_runTask]
    rfl
  · intro header
    have hp := process_csv_ok store₀ header [] (by intro row hr; cases hr)
    have hp' : process_csv Env.ok store₀ [header] =
        ⟨some [outputHeader], none⟩ := by
      rw [hp]
      rfl
    refine ⟨hp', ?_⟩
    rw [pollStatus_runTask, hp']

/-- C10 witness: the contrast between the empty and the header-only upload at
a concrete task. -/
theorem C10_empty_file_stuck_witness :
    ("a" : String) ≠ "" ∧
    ((upload_file (some ("a", [])) "t").1 = UploadResponse.accepted "t" ∧
    (process_csv Env.ok [] []).output = none ∧
    (process_csv Env.ok [] []).err = some ProcErr.missingHeader ∧
    pollStatus (runTask Env.ok [] "t" []) "t" = PollResult.Processing ∧
    (∀ header, process_csv Env.ok [] [header] = ⟨some [outputHeader], none⟩ ∧
      pollStatus (runTask Env.ok [] "t" [header]) "t" =
        PollResult.Complete [outputHeader])) :=
  ⟨by decide, C10_empty_file_stuck [] "t" "a" (by decide)⟩

end LargeCsv
